import Mathlib

/-!
# Verification of the NFS-A-PAGAR ingestion / dedup / export core

Shallow embedding of the data-handling core of `src/app.py`:

* field normalizers `only_digits`, `norm_text`, `norm_numero`, `parse_val`
  (app.py lines 24-44),
* header detection (lines 51-59), column mapping (lines 63-78),
* footer filtering and per-row normalization of `detect_and_load_excel`
  (lines 80-105),
* the dedup key builder `make_key` (lines 107-123),
* the merge engine `merge_import` (lines 125-147),
* the export serializer `to_excel_bytes` (lines 149-156),
* the grid-save re-normalization path (lines 227-231).

Modelling conventions:

* A worksheet cell is a `Cell`: `absent` stands for a missing value
  (Python `None` / float NaN / NaT — everything `pd.isna` accepts), `str`
  for a textual cell, `num m e` for a numeric cell whose exact value is
  `m / 10 ^ e` (Python floats are modelled as exact decimal numbers; their
  `str()` rendering is modelled by `floatStr`, the shortest-decimal form),
  and `date` for a datetime-typed cell.
* `pd.to_datetime(errors="coerce")` is an external pandas routine; it is
  modelled elementwise by `parseDate`: a datetime-typed cell yields its
  timestamp and everything else is unparseable (`none` = NaT).  Textual or
  epoch-numeric date representations are not consulted by any claim.
* `pd.to_numeric(errors="coerce")` on a string is modelled by
  `parseNumStr`, covering the plain decimal forms `[+-]digits[.digits]`;
  exotic accepted forms (exponents, "inf", "nan") are not consulted by any
  claim and are modelled as unparseable.
* Strings are compared and transformed through their character lists;
  Python `.strip()` / `.upper()` / `.lower()` / `str.isdigit` are modelled
  with the corresponding ASCII character operations.
-/

namespace App

/-! ## Character and string utilities -/

def isSpc (c : Char) : Bool := c.isWhitespace

/-- Python `str.strip()`: drop whitespace from both ends. -/
def trimChars (l : List Char) : List Char :=
  ((l.dropWhile isSpc).reverse.dropWhile isSpc).reverse

def trimS (s : String) : String := ⟨trimChars s.data⟩

/-- Python `str.upper()` (ASCII). -/
def upperS (s : String) : String := ⟨s.data.map Char.toUpper⟩

/-- Python `str.lower()` (ASCII). -/
def lowerS (s : String) : String := ⟨s.data.map Char.toLower⟩

/-- Does `pat` occur at the head of `l`? -/
def leadsWith : List Char → List Char → Bool
  | [], _ => true
  | _ :: _, [] => false
  | p :: ps, c :: cs => p == c && leadsWith ps cs

/-- Python `pat in l`: contiguous-substring containment. -/
def containsSub (pat : List Char) : List Char → Bool
  | [] => leadsWith pat []
  | c :: rest => leadsWith pat (c :: rest) || containsSub pat rest

/-- Python `s.replace(".0", "")`: remove every (left-to-right,
non-overlapping) occurrence of the two-character pattern `.0`. -/
def replaceDotZero : List Char → List Char
  | [] => []
  | [c] => [c]
  | c1 :: c2 :: rest =>
    if c1 = '.' ∧ c2 = '0' then replaceDotZero rest
    else c1 :: replaceDotZero (c2 :: rest)

/-! ## Decimal rendering: Python `str()` of numbers -/

/-- Little-endian decimal digits of `n` (with `fuel ≥ n` as fuel). -/
def natStrAux : Nat → Nat → List Char
  | 0, _ => []
  | fuel + 1, n => if n = 0 then [] else Nat.digitChar (n % 10) :: natStrAux fuel (n / 10)

/-- Decimal digit string of a natural number (big-endian). -/
def natChars (n : Nat) : List Char := if n = 0 then ['0'] else (natStrAux n n).reverse

def natStr (n : Nat) : String := ⟨natChars n⟩

def intChars (m : Int) : List Char := (if m < 0 then ['-'] else []) ++ natChars m.natAbs

def intStr (m : Int) : String := ⟨intChars m⟩

/-- Strip trailing zero decimal places from the scaled representation
`m / 10 ^ e` (Python float `str()` shows no trailing fractional zeros). -/
def canonDec : Int → Nat → Int × Nat
  | m, 0 => (m, 0)
  | m, e + 1 => if m % 10 = 0 then canonDec (m / 10) e else (m, e + 1)

/-- `natChars n` left-padded with zeros to at least `e` characters. -/
def padChars (n : Nat) (e : Nat) : List Char :=
  List.replicate (e - (natChars n).length) '0' ++ natChars n

/-- Render the canonical pair `(m, e)` the way Python `str()` renders the
float `m / 10 ^ e`: an integer value is shown with a trailing `.0`. -/
def renderDec (m : Int) (e : Nat) : List Char :=
  if e = 0 then intChars m ++ ['.', '0']
  else (if m < 0 then ['-'] else []) ++
    natChars (m.natAbs / 10 ^ e) ++ '.' :: padChars (m.natAbs % 10 ^ e) e

/-- Python `str()` of the float with exact value `m / 10 ^ e`. -/
def floatStr (m : Int) (e : Nat) : String :=
  ⟨renderDec (canonDec m e).1 (canonDec m e).2⟩

/-- Value of a little-endian decimal digit list (decoder used to prove the
renderers injective). -/
def decLE : List Char → Nat
  | [] => 0
  | c :: t => (c.toNat - 48) + 10 * decLE t

/-- Value of a big-endian decimal digit list. -/
def decBE (l : List Char) : Nat := decLE l.reverse

/-! ## Dates and cells -/

structure Date where
  year : Nat
  month : Nat
  day : Nat
deriving DecidableEq

structure DateTime where
  date : Date
  secs : Nat
deriving DecidableEq

/-- A raw worksheet cell value. -/
inductive Cell where
  | absent
  | str (s : String)
  | num (m : Int) (e : Nat)
  | date (dt : DateTime)
deriving DecidableEq

/-- `pd.isna` on a cell value. -/
def Cell.isna : Cell → Bool
  | .absent => true
  | _ => false

/-- Exact value of a numeric cell. -/
def decVal (m : Int) (e : Nat) : ℚ := (m : ℚ) / 10 ^ e

/-- Python `str()` of a raw cell value (`str(float("nan")) = "nan"`;
timestamps render as `YYYY-MM-DD hh:mm:ss`). -/
def pyStr : Cell → String
  | .absent => "nan"
  | .str s => s
  | .num m e => floatStr m e
  | .date dt =>
    (⟨padChars dt.date.year 4⟩ : String) ++ "-" ++ ⟨padChars dt.date.month 2⟩ ++ "-" ++
      ⟨padChars dt.date.day 2⟩ ++ " " ++ ⟨padChars (dt.secs / 3600) 2⟩ ++ ":" ++
      ⟨padChars (dt.secs / 60 % 60) 2⟩ ++ ":" ++ ⟨padChars (dt.secs % 60) 2⟩

/-! ## Field normalizers (app.py lines 24-44) -/

/-- app.py `only_digits` (lines 24-27). -/
def only_digits (c : Cell) : String :=
  if c.isna then "" else ⟨(pyStr c).data.filter Char.isDigit⟩

/-- app.py `norm_text` (lines 29-32). -/
def norm_text (c : Cell) : String :=
  if c.isna then "" else trimS (pyStr c)

/-- app.py `norm_numero` (lines 34-38): stringify, collapse the sentinels
`nan`/`nat`/`none` (case-insensitively) to the empty string, then
`replace(".0", "")` and `strip()`. -/
def norm_numero (c : Cell) : String :=
  let s := pyStr c
  if lowerS s = "nan" ∨ lowerS s = "nat" ∨ lowerS s = "none" then ""
  else trimS ⟨replaceDotZero s.data⟩

/-- Value of a big-endian digit string. -/
def digitsVal (l : List Char) : Nat := l.foldl (fun a c => 10 * a + (c.toNat - 48)) 0

/-- Parse `[+-]digits[.digits]` (after stripping surrounding whitespace)
into (negative?, integer part, fractional part, number of fractional
digits); anything else is unparseable. -/
def parseNumParts (s : String) : Option (Bool × Nat × Nat × Nat) :=
  let l := trimChars s.data
  let (neg, l2) :=
    match l with
    | '-' :: t => (true, t)
    | '+' :: t => (false, t)
    | t => (false, t)
  let ip := l2.takeWhile (fun c => c ≠ '.')
  let rest := l2.dropWhile (fun c => c ≠ '.')
  match rest with
  | [] =>
    if ip ≠ [] ∧ ip.all Char.isDigit then some (neg, digitsVal ip, 0, 0) else none
  | '.' :: fp =>
    if (ip ≠ [] ∨ fp ≠ []) ∧ ip.all Char.isDigit ∧ fp.all Char.isDigit then
      some (neg, digitsVal ip, digitsVal fp, fp.length)
    else none
  | _ => none

/-- The rational number described by a `parseNumParts` result. -/
def partsVal : Bool × Nat × Nat × Nat → ℚ :=
  fun (neg, i, f, k) => (if neg then -1 else 1) * ((i : ℚ) + (f : ℚ) / 10 ^ k)

/-- `pd.to_numeric(errors="coerce")` on a string: parse `[+-]digits[.digits]`
(after stripping surrounding whitespace); anything else coerces to NaN. -/
def parseNumStr (s : String) : Option ℚ := (parseNumParts s).map partsVal

/-- Python `s.replace(".", "")`. -/
def stripDots (s : String) : String := ⟨s.data.filter (fun c => c ≠ '.')⟩

/-- Python `s.replace(",", ".")`. -/
def commaFix (s : String) : String := ⟨s.data.map (fun c => if c = ',' then '.' else c)⟩

/-- app.py `parse_val` (lines 40-44): on a textual cell remove `.` then turn
`,` into `.` before the numeric parse; numeric cells pass through; absent
(and datetime-typed) cells coerce to NaN (`none`). -/
def parse_val : Cell → Option ℚ
  | .str s => parseNumStr (commaFix (stripDots s))
  | .num m e => some (decVal m e)
  | .absent => none
  | .date _ => none

/-- `pd.to_datetime(errors="coerce")`, elementwise (see module docstring). -/
def parseDate : Cell → Option DateTime
  | .date dt => some dt
  | _ => none

/-! ## Canonical records and the ingestion pipeline -/

def COLUMNS : List String := ["FORNECEDOR", "CNPJ", "NUMERO", "DATA", "VALOR"]

/-- A canonical record as persisted by the pipeline. -/
structure Rec where
  fornecedor : String
  cnpj : String
  numero : String
  data : Option DateTime
  valor : ℚ
deriving DecidableEq

/-- A record mid-pipeline, after normalization but before `fillna`:
date and amount may still be absent. -/
structure NormRow where
  fornecedor : String
  cnpj : String
  numero : String
  data : Option DateTime
  valor : Option ℚ
deriving DecidableEq

/-- Does row `i` of the raw grid contain both header keywords
(app.py lines 54-55: stringify and upper-case every cell, then look for the
substrings FORNECEDOR and VALOR)? -/
def rowHasHeaderMarks (row : List Cell) : Bool :=
  (row.any fun c => containsSub "FORNECEDOR".data (upperS (pyStr c)).data) &&
  (row.any fun c => containsSub "VALOR".data (upperS (pyStr c)).data)

/-- The `for i in range(min(10, len(raw)))` scan with early `break`
(app.py lines 53-57): `i` is the next row to test, the second argument the
number of rows still to test. -/
def scanHeader (grid : List (List Cell)) : Nat → Nat → Option Nat
  | _, 0 => none
  | i, k + 1 =>
    if rowHasHeaderMarks (grid.getD i []) then some i else scanHeader grid (i + 1) k

/-- app.py lines 51-59: the detected header row index, falling back to 0. -/
def detect_header_idx (grid : List (List Cell)) : Nat :=
  (scanHeader grid 0 (min 10 grid.length)).getD 0

/-- app.py lines 64-71: classify one header label (strip + upper, then the
keyword / alias rules, in source order). -/
def classify (label : String) : Option String :=
  let up := upperS (trimS label)
  if containsSub "FORNECEDOR".data up.data then some "FORNECEDOR"
  else if up = "CNPJ" ∨ up = "CPF" ∨ up = "CNPJ/CPF" ∨ up = "CNPJ / CPF" then some "CNPJ"
  else if up = "N°" ∨ up = "Nº" ∨ up = "NUMERO" ∨ up = "N° NF" ∨ up = "Nº NF" ∨
      up = "NF" ∨ up = "N" ∨ up = "N." then some "NUMERO"
  else if containsSub "DATA".data up.data then some "DATA"
  else if containsSub "VALOR".data up.data then some "VALOR"
  else none

/-- app.py line 72 (`df.rename`): each header label replaced by its
canonical name when it classifies. -/
def renamedHeaders (hs : List String) : List String :=
  hs.map fun h => (classify h).getD h

/-- Reading the cell of canonical column `c` in a row: the first column
whose renamed label equals `c` (pandas column lookup), or an absent value
when the column is missing (app.py lines 75-77: `df[c] = None`). -/
def getCell (hs : List String) (row : List Cell) (c : String) : Cell :=
  match (renamedHeaders hs).findIdx? (fun h => h == c) with
  | some i => row.getD i .absent
  | none => .absent

/-- app.py line 78 (`df = df[COLUMNS]`): the five canonical fields of a
row, in fixed order, as (field name, raw cell) pairs. -/
def selectRow (hs : List String) (row : List Cell) : List (String × Cell) :=
  COLUMNS.map fun c => (c, getCell hs row c)

/-- app.py `is_footer` (lines 81-87), applied to the raw (pre-normalization)
cells: no supplier, no number, no date, but an amount. -/
def is_footer (hs : List String) (row : List Cell) : Bool :=
  (getCell hs row "FORNECEDOR").isna && (getCell hs row "NUMERO").isna &&
    (getCell hs row "DATA").isna && !(getCell hs row "VALOR").isna

/-- app.py lines 91-95: the per-column normalizers. -/
def normRow (hs : List String) (row : List Cell) : NormRow :=
  { fornecedor := norm_text (getCell hs row "FORNECEDOR")
    cnpj := only_digits (getCell hs row "CNPJ")
    numero := norm_numero (getCell hs row "NUMERO")
    data := parseDate (getCell hs row "DATA")
    valor := parse_val (getCell hs row "VALOR") }

/-- `pd.isna` on a value of a Python `str`-typed column is always false. -/
def strIsNa (_ : String) : Bool := false

/-- app.py line 98 (`df.dropna(how="all")`): a normalized row is dropped
iff every one of its five values is NaN. -/
def rowAllNa (r : NormRow) : Bool :=
  strIsNa r.fornecedor && strIsNa r.cnpj && strIsNa r.numero &&
    r.data.isNone && r.valor.isNone

/-- app.py lines 100-103: `fillna("")` on the text columns (a no-op on
values already of type `str`) and `fillna(0.0)` on the amount. -/
def fillRow (r : NormRow) : Rec :=
  { fornecedor := r.fornecedor, cnpj := r.cnpj, numero := r.numero,
    data := r.data, valor := r.valor.getD 0 }

/-- The worksheet as re-parsed with the detected header row: header labels
plus data rows (ragged rows read as absent past their end, matching the
NaN padding of `ExcelFile.parse`). -/
structure Table where
  headers : List String
  rows : List (List Cell)

/-- app.py lines 63-105: column mapping, footer filter, normalization,
drop-all-NaN, fill defaults, dense re-index (a plain list). -/
def load_table (t : Table) : List Rec :=
  (((t.rows.filter fun r => !is_footer t.headers r).map
      (normRow t.headers)).filter fun n => !rowAllNa n).map fillRow

/-! ## Dedup key and merge (app.py lines 107-147) -/

/-- numpy round-half-to-even of `q * 100`, as an integer. -/
def rhe100 (q : ℚ) : Int :=
  if q * 100 - ⌊q * 100⌋ < 1 / 2 then ⌊q * 100⌋
  else if 1 / 2 < q * 100 - ⌊q * 100⌋ then ⌊q * 100⌋ + 1
  else if ⌊q * 100⌋ % 2 = 0 then ⌊q * 100⌋ else ⌊q * 100⌋ + 1

/-- `Series.round(2)`: rounding to two decimal places, half to even. -/
def round2 (q : ℚ) : ℚ := (rhe100 q : ℚ) / 100

/-- app.py line 116: `round(2).astype(str)` of the amount. -/
def valorStr (q : ℚ) : String := floatStr (rhe100 q) 2

/-- app.py line 115: `strftime("%Y-%m-%d")` with NaT replaced by `""`. -/
def fmtData : Option DateTime → String
  | none => ""
  | some dt =>
    (⟨padChars dt.date.year 4⟩ : String) ++ "-" ++ ⟨padChars dt.date.month 2⟩ ++ "-" ++
      ⟨padChars dt.date.day 2⟩

/-- app.py `make_key` (lines 107-123), per record. -/
def make_key (r : Rec) : String :=
  if r.cnpj ≠ "" then
    r.cnpj ++ "|" ++ r.numero ++ "|" ++ fmtData r.data
  else
    trimS (upperS r.fornecedor) ++ "|" ++ r.numero ++ "|" ++ fmtData r.data ++ "|" ++
      valorStr r.valor

/-- app.py `merge_import` (lines 125-147). -/
def merge_import (base incoming : List Rec) (mode : String) : List Rec × Nat × Nat :=
  if mode = "replace" then (incoming, incoming.length, 0)
  else
    let existing := base.map make_key
    let added := incoming.filter fun r => !existing.contains (make_key r)
    (base ++ added, added.length, incoming.length - added.length)

/-! ## Export serializer (app.py lines 149-156) -/

/-- A cell written to the output workbook. -/
inductive XCell where
  | str (s : String)
  | date (d : Date)
  | num (q : ℚ)
  | empty
deriving DecidableEq

/-- The observable content of the produced workbook: one sheet with a
header row (`index=False`, so rows carry exactly the five fields). -/
structure Workbook where
  sheetName : String
  header : List String
  rows : List (List XCell)
deriving DecidableEq

/-- One exported row: the five canonical fields in order, the issue date
reduced to a pure calendar date (`.dt.date`), NaT as an empty cell. -/
def exportRow (r : Rec) : List XCell :=
  [.str r.fornecedor, .str r.cnpj, .str r.numero,
    (match r.data with | some dt => .date dt.date | none => .empty),
    .num r.valor]

/-- app.py `to_excel_bytes` (lines 149-156), in state-passing form: the
result pairs the produced workbook with the caller's dataset as observable
after the call (the conversion happens on `df.copy()`). -/
def to_excel_bytes (df : List Rec) : Workbook × List Rec :=
  (⟨"NFS A PAGAR", COLUMNS, df.map exportRow⟩, df)

/-! ## Grid-save re-normalization (app.py lines 227-231) -/

/-- The save-button path re-applies the field normalizers to an
already-typed record: `norm_text` / `only_digits` / `norm_numero` see the
stored strings, `pd.to_datetime` is the identity on a datetime column and
`parse_val(...).fillna(0.0)` is the identity on a float column. -/
def normalizeRec (r : Rec) : Rec :=
  { fornecedor := norm_text (.str r.fornecedor)
    cnpj := only_digits (.str r.cnpj)
    numero := norm_numero (.str r.numero)
    data := r.data
    valor := r.valor }

/-! ## Concrete instances named by the claims -/

/-- A raw grid whose rows 0-1 are a title and a blank row and whose row 2 is
the header row of the spec's header-detection instance. -/
def exGrid : List (List Cell) :=
  [[.str "NFS A PAGAR"], [.absent],
    [.str "FORNECEDOR", .str "CNPJ", .str "Nº NF", .str "DATA", .str "VALOR"],
    [.str "ACME", .str "123", .str "42", .absent, .num 10 0]]

/-- A footer/total row: no supplier, number or date, amount 1000.0. -/
def footRow : List Cell := [.absent, .absent, .absent, .absent, .num 1000 0]

/-- Same amount, but with a supplier: not a footer. -/
def keptRow : List Cell := [.str "ACME", .absent, .absent, .absent, .num 1000 0]

/-- Supplier present as an empty string: `pd.isna("")` is false, so the
footer test (which runs before normalization) keeps this row. -/
def emptyStrRow : List Cell := [.str "", .absent, .absent, .absent, .num 1000 0]

/-- A fully blank source row. -/
def blankRow : List Cell := [.absent, .absent, .absent, .absent, .absent]

/-- A row whose amount cell is unparseable text. -/
def badValRow : List Cell := [.str "X", .absent, .absent, .absent, .str "abc"]

/-! ## Lemmas: decimal digit strings and their decoders -/

theorem digitChar_isDigit {d : Nat} (h : d < 10) : (Nat.digitChar d).isDigit = true := by
  interval_cases d <;> decide

theorem digitChar_toNat {d : Nat} (h : d < 10) : (Nat.digitChar d).toNat - 48 = d := by
  interval_cases d <;> decide

theorem digitChar_ne_zero {d : Nat} (h : d < 10) (h0 : d ≠ 0) : Nat.digitChar d ≠ '0' := by
  interval_cases d
  · exact absurd rfl h0
  all_goals decide

theorem decLE_natStrAux : ∀ (fuel n : Nat), n ≤ fuel → decLE (natStrAux fuel n) = n := by
  intro fuel
  induction fuel with
  | zero =>
    intro n h
    have h0 : n = 0 := Nat.le_zero.mp h
    subst h0
    rfl
  | succ k ih =>
    intro n h
    by_cases h0 : n = 0
    · subst h0
      simp [natStrAux, decLE]
    · simp only [natStrAux, if_neg h0, decLE]
      rw [digitChar_toNat (Nat.mod_lt n (by norm_num)),
        ih (n / 10) (by
          have : n / 10 < n := Nat.div_lt_self (Nat.pos_of_ne_zero h0) (by norm_num)
          omega)]
      omega

theorem decBE_natChars (n : Nat) : decBE (natChars n) = n := by
  by_cases h0 : n = 0
  · subst h0
    decide
  · simp only [natChars, if_neg h0, decBE, List.reverse_reverse]
    exact decLE_natStrAux n n le_rfl

theorem natChars_inj {m n : Nat} (h : natChars m = natChars n) : m = n := by
  have h2 := congrArg decBE h
  rwa [decBE_natChars, decBE_natChars] at h2

theorem natStrAux_digits : ∀ (fuel n : Nat), ∀ c ∈ natStrAux fuel n, c.isDigit = true := by
  intro fuel
  induction fuel with
  | zero =>
    intro n c hc
    simp [natStrAux] at hc
  | succ k ih =>
    intro n c hc
    by_cases h0 : n = 0
    · subst h0
      simp [natStrAux] at hc
    · simp only [natStrAux, if_neg h0, List.mem_cons] at hc
      rcases hc with rfl | hc
      · exact digitChar_isDigit (Nat.mod_lt n (by norm_num))
      · exact ih _ c hc

theorem natChars_digits (n : Nat) : ∀ c ∈ natChars n, c.isDigit = true := by
  intro c hc
  by_cases h0 : n = 0
  · subst h0
    rw [show natChars 0 = ['0'] from rfl, List.mem_singleton] at hc
    subst hc
    decide
  · simp only [natChars, if_neg h0, List.mem_reverse] at hc
    exact natStrAux_digits n n c hc

theorem natChars_ne_nil (n : Nat) : natChars n ≠ [] := by
  by_cases h0 : n = 0
  · subst h0
    simp [natChars]
  · obtain ⟨k, rfl⟩ := Nat.exists_eq_succ_of_ne_zero h0
    simp [natChars, natStrAux, h0]

theorem decLE_append (a b : List Char) : decLE (a ++ b) = decLE a + 10 ^ a.length * decLE b := by
  induction a with
  | nil => simp [decLE]
  | cons c t ih =>
    rw [List.cons_append]
    show (c.toNat - 48) + 10 * decLE (t ++ b) = _
    rw [ih, List.length_cons, pow_succ]
    show _ = (c.toNat - 48) + 10 * decLE t + (10 ^ t.length * 10) * decLE b
    ring

theorem decLE_replicate_zero (k : Nat) : decLE (List.replicate k '0') = 0 := by
  induction k with
  | zero => rfl
  | succ k ih => simp [List.replicate_succ, decLE, ih]

theorem decLE_reverse_natChars (n : Nat) : decLE (natChars n).reverse = n := decBE_natChars n

theorem decBE_padChars (n e : Nat) : decBE (padChars n e) = n := by
  simp [padChars, decBE, List.reverse_append, decLE_append, decLE_replicate_zero,
    List.reverse_replicate, decLE_reverse_natChars]

theorem natStrAux_length : ∀ (fuel n e : Nat), n ≤ fuel → n < 10 ^ e →
    (natStrAux fuel n).length ≤ e := by
  intro fuel
  induction fuel with
  | zero =>
    intro n e h _
    have h0 : n = 0 := Nat.le_zero.mp h
    subst h0
    simp [natStrAux]
  | succ k ih =>
    intro n e h he
    by_cases h0 : n = 0
    · subst h0
      simp [natStrAux]
    · cases e with
      | zero =>
        simp only [pow_zero] at he
        omega
      | succ e2 =>
        simp only [natStrAux, if_neg h0, List.length_cons]
        have hd : n / 10 < 10 ^ e2 := by
          rw [Nat.div_lt_iff_lt_mul (by norm_num)]
          calc n < 10 ^ (e2 + 1) := he
          _ = 10 ^ e2 * 10 := by ring
        have hle : n / 10 ≤ k := by
          have : n / 10 < n := Nat.div_lt_self (Nat.pos_of_ne_zero h0) (by norm_num)
          omega
        have := ih (n / 10) e2 hle hd
        omega

theorem natChars_length_le {n e : Nat} (he : 0 < e) (h : n < 10 ^ e) :
    (natChars n).length ≤ e := by
  by_cases h0 : n = 0
  · subst h0
    simpa [natChars] using he
  · simp only [natChars, if_neg h0, List.length_reverse]
    exact natStrAux_length n n e le_rfl h

theorem padChars_length {n e : Nat} (he : 0 < e) (h : n < 10 ^ e) :
    (padChars n e).length = e := by
  have h2 := natChars_length_le he h
  simp only [padChars, List.length_append, List.length_replicate]
  omega

theorem natChars_getLast {n : Nat} (h0 : n ≠ 0) :
    (natChars n).getLast? = some (Nat.digitChar (n % 10)) := by
  simp only [natChars, if_neg h0]
  obtain ⟨k, rfl⟩ := Nat.exists_eq_succ_of_ne_zero h0
  rw [List.getLast?_reverse]
  simp [natStrAux, h0]

theorem padChars_getLast {n e : Nat} (h0 : n ≠ 0) :
    (padChars n e).getLast? = some (Nat.digitChar (n % 10)) := by
  simp [padChars, List.getLast?_append, natChars_getLast h0]

theorem ne_dot_of_isDigit {c : Char} (h : c.isDigit = true) : c ≠ '.' := by
  intro h2
  rw [h2] at h
  exact absurd h (by decide)

theorem ne_dash_of_isDigit {c : Char} (h : c.isDigit = true) : c ≠ '-' := by
  intro h2
  rw [h2] at h
  exact absurd h (by decide)

theorem dot_not_mem_natChars (n : Nat) : '.' ∉ natChars n := by
  intro hmem
  exact ne_dot_of_isDigit (natChars_digits n _ hmem) rfl

theorem split_at_dot : ∀ (l1 : List Char) {l2 r1 r2 : List Char}, '.' ∉ l1 → '.' ∉ l2 →
    l1 ++ '.' :: r1 = l2 ++ '.' :: r2 → l1 = l2 ∧ r1 = r2 := by
  intro l1
  induction l1 with
  | nil =>
    intro l2 r1 r2 _ h2 h
    cases l2 with
    | nil => simpa using h
    | cons c t =>
      simp only [List.nil_append, List.cons_append, List.cons.injEq] at h
      exact absurd (h.1 ▸ List.mem_cons_self c t) h2
  | cons a t ih =>
    intro l2 r1 r2 h1 h2 h
    cases l2 with
    | nil =>
      simp only [List.nil_append, List.cons_append, List.cons.injEq] at h
      exact absurd (h.1 ▸ List.mem_cons_self a t) h1
    | cons c t2 =>
      simp only [List.cons_append, List.cons.injEq] at h
      obtain ⟨rfl, h⟩ := h
      have := ih (fun hm => h1 (List.mem_cons_of_mem _ hm))
        (fun hm => h2 (List.mem_cons_of_mem _ hm)) h
      exact ⟨by rw [this.1], this.2⟩

/-! ## Lemmas: injectivity of the float renderer -/

theorem intChars_inj {m n : Int} (h : intChars m = intChars n) : m = n := by
  unfold intChars at h
  by_cases hm : m < 0 <;> by_cases hn : n < 0
  · rw [if_pos hm, if_pos hn] at h
    simp only [List.singleton_append, List.cons.injEq] at h
    have := natChars_inj h.2
    omega
  · rw [if_pos hm, if_neg hn] at h
    simp only [List.singleton_append, List.nil_append] at h
    have hmem : '-' ∈ natChars n.natAbs := h ▸ List.mem_cons_self '-' _
    exact absurd (natChars_digits _ _ hmem) (by decide)
  · rw [if_neg hm, if_pos hn] at h
    simp only [List.singleton_append, List.nil_append] at h
    have hmem : '-' ∈ natChars m.natAbs := h.symm ▸ List.mem_cons_self '-' _
    exact absurd (natChars_digits _ _ hmem) (by decide)
  · rw [if_neg hm, if_neg hn] at h
    simp only [List.nil_append] at h
    have := natChars_inj h
    omega

theorem renderDec_getLast_zero (m : Int) : (renderDec m 0).getLast? = some '0' := by
  simp [renderDec, List.getLast?_append]

theorem int_emod_ten_natAbs {m : Int} (h : m % 10 ≠ 0) : m.natAbs % 10 ≠ 0 := by
  omega

theorem renderDec_getLast_pos {m : Int} {e : Nat} (he : e ≠ 0) (hm : m % 10 ≠ 0) :
    (renderDec m e).getLast? = some (Nat.digitChar (m.natAbs % 10)) := by
  have hfr : m.natAbs % 10 ^ e % 10 = m.natAbs % 10 := by
    apply Nat.mod_mod_of_dvd
    exact dvd_pow_self 10 he
  have hfr0 : m.natAbs % 10 ^ e ≠ 0 := by
    intro h0
    rw [h0] at hfr
    exact int_emod_ten_natAbs hm hfr.symm
  have hpad := padChars_getLast (e := e) hfr0
  rw [hfr] at hpad
  unfold renderDec
  rw [if_neg he]
  rw [List.getLast?_append, List.getLast?_append,
    show ('.' :: padChars (m.natAbs % 10 ^ e) e) = ['.'] ++ padChars (m.natAbs % 10 ^ e) e
      from rfl,
    List.getLast?_append, hpad]
  rfl

theorem dot_not_mem_sgn_ip (m : Int) (ip : Nat) :
    '.' ∉ (if m < 0 then ['-'] else []) ++ natChars ip := by
  intro hmem
  rcases List.mem_append.mp hmem with hmem | hmem
  · by_cases hm : m < 0
    · rw [if_pos hm, List.mem_singleton] at hmem
      exact absurd hmem (by decide)
    · rw [if_neg hm] at hmem
      exact absurd hmem (List.not_mem_nil _)
  · exact dot_not_mem_natChars ip hmem

theorem renderDec_inj {m1 m2 : Int} {e1 e2 : Nat}
    (hc1 : e1 = 0 ∨ m1 % 10 ≠ 0) (hc2 : e2 = 0 ∨ m2 % 10 ≠ 0)
    (h : renderDec m1 e1 = renderDec m2 e2) : m1 = m2 ∧ e1 = e2 := by
  by_cases he1 : e1 = 0 <;> by_cases he2 : e2 = 0
  · subst he1
    subst he2
    refine ⟨?_, rfl⟩
    unfold renderDec at h
    rw [if_pos rfl, if_pos rfl] at h
    exact intChars_inj (List.append_cancel_right h)
  · exfalso
    subst he1
    have hm2 : m2 % 10 ≠ 0 := hc2.resolve_left he2
    have hz := renderDec_getLast_zero m1
    have hp := renderDec_getLast_pos he2 hm2
    rw [h, hp] at hz
    exact digitChar_ne_zero (Nat.mod_lt _ (by norm_num)) (int_emod_ten_natAbs hm2)
      (Option.some.inj hz)
  · exfalso
    subst he2
    have hm1 : m1 % 10 ≠ 0 := hc1.resolve_left he1
    have hz := renderDec_getLast_zero m2
    have hp := renderDec_getLast_pos he1 hm1
    rw [← h, hp] at hz
    exact digitChar_ne_zero (Nat.mod_lt _ (by norm_num)) (int_emod_ten_natAbs hm1)
      (Option.some.inj hz)
  · have hm1 : m1 % 10 ≠ 0 := hc1.resolve_left he1
    have hm2 : m2 % 10 ≠ 0 := hc2.resolve_left he2
    unfold renderDec at h
    rw [if_neg he1, if_neg he2] at h
    obtain ⟨hL, hR⟩ := split_at_dot _ (dot_not_mem_sgn_ip m1 _) (dot_not_mem_sgn_ip m2 _) h
    have hfr1lt : m1.natAbs % 10 ^ e1 < 10 ^ e1 := Nat.mod_lt _ (pow_pos (by norm_num) e1)
    have hfr2lt : m2.natAbs % 10 ^ e2 < 10 ^ e2 := Nat.mod_lt _ (pow_pos (by norm_num) e2)
    have hlen := congrArg List.length hR
    rw [padChars_length (Nat.pos_of_ne_zero he1) hfr1lt,
      padChars_length (Nat.pos_of_ne_zero he2) hfr2lt] at hlen
    subst hlen
    refine ⟨?_, rfl⟩
    have hfr := congrArg decBE hR
    rw [decBE_padChars, decBE_padChars] at hfr
    by_cases hs1 : m1 < 0 <;> by_cases hs2 : m2 < 0
    · rw [if_pos hs1, if_pos hs2] at hL
      simp only [List.singleton_append, List.cons.injEq] at hL
      have hip := natChars_inj hL.2
      have habs : m1.natAbs = m2.natAbs := by
        have hd : m1.natAbs = 10 ^ e1 * (m1.natAbs / 10 ^ e1) + m1.natAbs % 10 ^ e1 :=
          (Nat.div_add_mod _ _).symm
        rw [hd, hip, hfr, Nat.div_add_mod]
      omega
    · rw [if_pos hs1, if_neg hs2] at hL
      simp only [List.singleton_append, List.nil_append] at hL
      have hmem : '-' ∈ natChars (m2.natAbs / 10 ^ e1) := hL ▸ List.mem_cons_self '-' _
      exact absurd (natChars_digits _ _ hmem) (by decide)
    · rw [if_neg hs1, if_pos hs2] at hL
      simp only [List.singleton_append, List.nil_append] at hL
      have hmem : '-' ∈ natChars (m1.natAbs / 10 ^ e1) := hL.symm ▸ List.mem_cons_self '-' _
      exact absurd (natChars_digits _ _ hmem) (by decide)
    · rw [if_neg hs1, if_neg hs2] at hL
      simp only [List.nil_append] at hL
      have hip := natChars_inj hL
      have habs : m1.natAbs = m2.natAbs := by
        have hd : m1.natAbs = 10 ^ e1 * (m1.natAbs / 10 ^ e1) + m1.natAbs % 10 ^ e1 :=
          (Nat.div_add_mod _ _).symm
        rw [hd, hip, hfr, Nat.div_add_mod]
      omega

theorem canonDec_canonical : ∀ (e : Nat) (m : Int),
    (canonDec m e).2 = 0 ∨ (canonDec m e).1 % 10 ≠ 0 := by
  intro e
  induction e with
  | zero => intro m; left; rfl
  | succ k ih =>
    intro m
    by_cases h : m % 10 = 0
    · rw [show canonDec m (k + 1) = canonDec (m / 10) k by simp [canonDec, h]]
      exact ih _
    · rw [show canonDec m (k + 1) = (m, k + 1) by simp [canonDec, h]]
      exact Or.inr h

theorem canonDec_val : ∀ (e : Nat) (m : Int),
    ((canonDec m e).1 : ℚ) / 10 ^ (canonDec m e).2 = (m : ℚ) / 10 ^ e := by
  intro e
  induction e with
  | zero => intro m; rfl
  | succ k ih =>
    intro m
    by_cases h : m % 10 = 0
    · rw [show canonDec m (k + 1) = canonDec (m / 10) k by simp [canonDec, h], ih]
      obtain ⟨j, rfl⟩ := Int.dvd_of_emod_eq_zero h
      rw [Int.mul_ediv_cancel_left j (by norm_num)]
      push_cast
      rw [pow_succ]
      field_simp
      ring
    · rw [show canonDec m (k + 1) = (m, k + 1) by simp [canonDec, h]]

theorem floatStr_inj {m1 m2 : Int} {e : Nat} (h : floatStr m1 e = floatStr m2 e) :
    m1 = m2 := by
  unfold floatStr at h
  have hd : renderDec (canonDec m1 e).1 (canonDec m1 e).2 =
      renderDec (canonDec m2 e).1 (canonDec m2 e).2 := congrArg String.data h
  obtain ⟨hm, he⟩ := renderDec_inj (canonDec_canonical e m1) (canonDec_canonical e m2) hd
  have v1 := canonDec_val e m1
  have v2 := canonDec_val e m2
  rw [hm, he, v2] at v1
  have h10 : (10 : ℚ) ^ e ≠ 0 := pow_ne_zero e (by norm_num)
  field_simp at v1
  exact_mod_cast v1.symm

/-! ## Lemmas: ingestion pipeline -/

theorem isna_iff {c : Cell} : c.isna = true ↔ c = .absent := by
  cases c <;> simp [Cell.isna]

theorem isna_eq_false {c : Cell} : c.isna = false ↔ c ≠ .absent := by
  cases c <;> simp [Cell.isna]

theorem rowAllNa_false (n : NormRow) : rowAllNa n = false := by
  simp [rowAllNa, strIsNa]

theorem load_table_eq (t : Table) :
    load_table t = (t.rows.filter fun r => !is_footer t.headers r).map
      (fun r => fillRow (normRow t.headers r)) := by
  have hf : ∀ n ∈ (t.rows.filter fun r => !is_footer t.headers r).map (normRow t.headers),
      (!rowAllNa n) = true := by
    intro n _
    simp [rowAllNa_false]
  unfold load_table
  rw [List.filter_eq_self.mpr hf, List.map_map]
  rfl

theorem norm_text_str (s : String) : norm_text (.str s) = trimS s := rfl

theorem only_digits_str (s : String) :
    only_digits (.str s) = ⟨s.data.filter Char.isDigit⟩ := rfl

theorem norm_numero_str (s : String) :
    norm_numero (.str s) =
      if lowerS s = "nan" ∨ lowerS s = "nat" ∨ lowerS s = "none" then ""
      else trimS ⟨replaceDotZero s.data⟩ := rfl

theorem replaceDotZero_id : ∀ l : List Char, containsSub ['.', '0'] l = false →
    replaceDotZero l = l
  | [], _ => rfl
  | [_], _ => rfl
  | c1 :: c2 :: rest, h => by
    have hparts := Bool.or_eq_false_iff.mp h
    have hne : ¬(c1 = '.' ∧ c2 = '0') := by
      rintro ⟨rfl, rfl⟩
      simp [leadsWith] at hparts
    show (if c1 = '.' ∧ c2 = '0' then replaceDotZero rest
      else c1 :: replaceDotZero (c2 :: rest)) = c1 :: c2 :: rest
    rw [if_neg hne, replaceDotZero_id (c2 :: rest) hparts.2]

/-! ## Lemmas: header scan -/

theorem scanHeader_some (grid : List (List Cell)) : ∀ (k i j : Nat),
    scanHeader grid i k = some j →
    i ≤ j ∧ j < i + k ∧ rowHasHeaderMarks (grid.getD j []) = true ∧
      ∀ m, i ≤ m → m < j → rowHasHeaderMarks (grid.getD m []) = false := by
  intro k
  induction k with
  | zero =>
    intro i j h
    simp [scanHeader] at h
  | succ n ih =>
    intro i j h
    rw [show scanHeader grid i (n + 1) =
        if rowHasHeaderMarks (grid.getD i []) then some i else scanHeader grid (i + 1) n
      from rfl] at h
    cases hp : rowHasHeaderMarks (grid.getD i []) with
    | true =>
      rw [hp, if_pos rfl] at h
      obtain rfl : i = j := Option.some.inj h
      exact ⟨le_rfl, by omega, hp, fun m h1 h2 => by omega⟩
    | false =>
      rw [hp, if_neg (by decide)] at h
      obtain ⟨h1, h2, h3, h4⟩ := ih (i + 1) j h
      refine ⟨by omega, by omega, h3, ?_⟩
      intro m hm1 hm2
      by_cases hmi : m = i
      · subst hmi
        exact hp
      · exact h4 m (by omega) hm2

theorem scanHeader_none (grid : List (List Cell)) : ∀ (k i : Nat),
    scanHeader grid i k = none →
    ∀ m, i ≤ m → m < i + k → rowHasHeaderMarks (grid.getD m []) = false := by
  intro k
  induction k with
  | zero =>
    intro i _ m h1 h2
    omega
  | succ n ih =>
    intro i h m h1 h2
    rw [show scanHeader grid i (n + 1) =
        if rowHasHeaderMarks (grid.getD i []) then some i else scanHeader grid (i + 1) n
      from rfl] at h
    cases hp : rowHasHeaderMarks (grid.getD i []) with
    | true =>
      rw [hp, if_pos rfl] at h
      exact absurd h (by simp)
    | false =>
      rw [hp, if_neg (by decide)] at h
      by_cases hmi : m = i
      · subst hmi
        exact hp
      · exact ih (i + 1) h m (by omega) (by omega)

/-! ## Claim theorems -/

/-- C1: append-without-duplicate merge admits an incoming record iff its
dedup key is not among the keys of the existing records (incoming records
are never checked against each other), appends admitted records after the
existing ones preserving incoming order, and returns
`count_added` = number of admitted records and
`count_skipped` = `|incoming| - count_added`; on the spec's concrete
instance (existing `{K1}`, incoming `{K1, K2}`) it adds 1, skips 1, and the
result holds exactly the keys `K1, K2`. -/
theorem c1_append_without_duplicate :
    (∀ base inc : List Rec,
      ((merge_import base inc "append_nodedup").1 =
        base ++ inc.filter (fun r => !(base.map make_key).contains (make_key r))) ∧
      (∀ r : Rec, (!(base.map make_key).contains (make_key r)) = true ↔
        make_key r ∉ base.map make_key) ∧
      ((merge_import base inc "append_nodedup").2.1 =
        (inc.filter (fun r => !(base.map make_key).contains (make_key r))).length) ∧
      ((merge_import base inc "append_nodedup").2.2 =
        inc.length - (merge_import base inc "append_nodedup").2.1) ∧
      ((merge_import base inc "append_nodedup").2.1 +
        (merge_import base inc "append_nodedup").2.2 = inc.length)) ∧
    merge_import [⟨"A", "11", "1", none, 5⟩]
      [⟨"B", "11", "1", none, 5⟩, ⟨"C", "22", "2", none, 7⟩] "append_nodedup" =
      ([⟨"A", "11", "1", none, 5⟩, ⟨"C", "22", "2", none, 7⟩], 1, 1) ∧
    (merge_import [⟨"A", "11", "1", none, 5⟩]
      [⟨"B", "11", "1", none, 5⟩, ⟨"C", "22", "2", none, 7⟩] "append_nodedup").1.map
        make_key = ["11|1|", "22|2|"] := by
  refine ⟨?_, by decide, by decide⟩
  intro base inc
  have hm : merge_import base inc "append_nodedup" =
      (base ++ inc.filter (fun r => !(base.map make_key).contains (make_key r)),
        (inc.filter (fun r => !(base.map make_key).contains (make_key r))).length,
        inc.length -
          (inc.filter (fun r => !(base.map make_key).contains (make_key r))).length) := by
    unfold merge_import
    rw [if_neg (by decide)]
  rw [hm]
  refine ⟨rfl, ?_, rfl, rfl, Nat.add_sub_cancel' (List.length_filter_le _ _)⟩
  intro r
  rw [Bool.not_eq_true']
  constructor
  · intro h hmem
    have := List.elem_iff.mpr hmem
    rw [show (base.map make_key).contains (make_key r) =
      (base.map make_key).elem (make_key r) from rfl, this] at h
    exact absurd h (by decide)
  · intro h
    cases hx : (base.map make_key).contains (make_key r) with
    | false => rfl
    | true =>
      rw [show (base.map make_key).contains (make_key r) =
        (base.map make_key).elem (make_key r) from rfl] at hx
      exact absurd (List.elem_iff.mp hx) h

/-- C2 (counterexample): two records with empty tax_id agreeing on supplier,
invoice number and date whose amounts differ — but agree after rounding to
two decimals — receive the SAME dedup key, refuting the claim that any
difference in amount yields different keys. -/
theorem c2_dedup_key_counterexample :
    (⟨"ACME", "", "42", none, 1 / 1000⟩ : Rec).valor ≠
      (⟨"ACME", "", "42", none, 2 / 1000⟩ : Rec).valor ∧
    make_key ⟨"ACME", "", "42", none, 1 / 1000⟩ =
      make_key ⟨"ACME", "", "42", none, 2 / 1000⟩ := by
  constructor
  · show (1 / 1000 : ℚ) ≠ 2 / 1000
    norm_num
  · have h1 : rhe100 (1 / 1000 : ℚ) = 0 := by
      unfold rhe100
      norm_num
    have h2 : rhe100 (2 / 1000 : ℚ) = 0 := by
      unfold rhe100
      norm_num
    unfold make_key valorStr
    rw [if_neg (by decide), if_neg (by decide)]
    rw [show (⟨"ACME", "", "42", none, 1 / 1000⟩ : Rec).valor = (1 / 1000 : ℚ) from rfl,
      show (⟨"ACME", "", "42", none, 2 / 1000⟩ : Rec).valor = (2 / 1000 : ℚ) from rfl,
      h1, h2]

/-- C2 (amended): the dedup key is `tax_id|invoice|date` for non-empty
tax_id and `UPPER(TRIM(supplier))|invoice|date|amount-rounded-to-2-decimals`
otherwise; records sharing a non-empty tax_id, invoice number and date get
identical keys regardless of supplier; records with empty tax_id sharing
supplier, invoice number and date whose amounts differ AFTER rounding to
two decimals get different keys. -/
theorem c2_dedup_key_amended :
    (∀ r : Rec, r.cnpj ≠ "" →
      make_key r = r.cnpj ++ "|" ++ r.numero ++ "|" ++ fmtData r.data) ∧
    (∀ r : Rec, r.cnpj = "" →
      make_key r = trimS (upperS r.fornecedor) ++ "|" ++ r.numero ++ "|" ++
        fmtData r.data ++ "|" ++ valorStr r.valor) ∧
    (∀ r1 r2 : Rec, r1.cnpj ≠ "" → r1.cnpj = r2.cnpj → r1.numero = r2.numero →
      r1.data = r2.data → make_key r1 = make_key r2) ∧
    (∀ r1 r2 : Rec, r1.cnpj = "" → r2.cnpj = "" → r1.fornecedor = r2.fornecedor →
      r1.numero = r2.numero → r1.data = r2.data → round2 r1.valor ≠ round2 r2.valor →
      make_key r1 ≠ make_key r2) := by
  refine ⟨?_, ?_, ?_, ?_⟩
  · intro r h
    unfold make_key
    rw [if_pos h]
  · intro r h
    unfold make_key
    rw [if_neg (by simp [h])]
  · intro r1 r2 h1 hc hn hd
    unfold make_key
    rw [if_pos h1, if_pos (hc ▸ h1), hc, hn, hd]
  · intro r1 r2 h1 h2 hforn hn hd hv heq
    have hr : rhe100 r1.valor ≠ rhe100 r2.valor := by
      intro h
      exact hv (by unfold round2; rw [h])
    unfold make_key at heq
    rw [if_neg (by simp [h1]), if_neg (by simp [h2]), hforn, hn, hd] at heq
    have hdata := congrArg String.data heq
    rw [String.data_append, String.data_append] at hdata
    exact hr (floatStr_inj (String.ext (List.append_cancel_left hdata)))

/-- C2 (witness for the amended theorem): two records with empty tax_id
agreeing on everything but the amount, whose amounts differ after 2-decimal
rounding, receive different keys. -/
theorem c2_dedup_key_amended_witness :
    make_key ⟨"A", "", "1", none, (0 : ℚ)⟩ ≠ make_key ⟨"A", "", "1", none, (1 : ℚ)⟩ := by
  refine c2_dedup_key_amended.2.2.2 ⟨"A", "", "1", none, (0 : ℚ)⟩
    ⟨"A", "", "1", none, (1 : ℚ)⟩ rfl rfl rfl rfl rfl ?_
  have h0 : rhe100 (0 : ℚ) = 0 := by
    unfold rhe100
    norm_num
  have h1 : rhe100 (1 : ℚ) = 100 := by
    unfold rhe100
    norm_num
  unfold round2
  rw [h0, h1]
  norm_num

/-- C3: the header detector scans rows `0 .. min(10, rowCount) - 1` in
order, picks the first row containing both keyword substrings (upper-cased)
and falls back to row 0; on the spec's concrete grid, whose row 2 holds the
header labels, it selects index 2. -/
theorem c3_header_detection :
    (∀ grid : List (List Cell),
      (∃ i, i < min 10 grid.length ∧ rowHasHeaderMarks (grid.getD i []) = true ∧
        detect_header_idx grid = i ∧
        ∀ j, j < i → rowHasHeaderMarks (grid.getD j []) = false) ∨
      ((∀ i, i < min 10 grid.length → rowHasHeaderMarks (grid.getD i []) = false) ∧
        detect_header_idx grid = 0)) ∧
    detect_header_idx exGrid = 2 := by
  constructor
  · intro grid
    unfold detect_header_idx
    cases hscan : scanHeader grid 0 (min 10 grid.length) with
    | some i =>
      left
      obtain ⟨_, h2, h3, h4⟩ := scanHeader_some grid _ 0 i hscan
      exact ⟨i, by omega, h3, rfl, fun j hj => h4 j (Nat.zero_le j) hj⟩
    | none =>
      right
      exact ⟨fun i hi => scanHeader_none grid _ 0 hscan i (Nat.zero_le i) (by omega), rfl⟩
  · decide

/-- C4: a row is discarded as a footer/total row iff supplier, invoice
number and issue date are all absent while the amount is present; the
filter runs on raw cells, before normalization (a present-but-empty
supplier string already saves the row), it is the only row-dropping step,
and on the concrete instances a supplier-less row with amount 1000.0 is
dropped while the same row with a supplier (even an empty-string one)
is kept. -/
theorem c4_footer_filter :
    (∀ (hs : List String) (row : List Cell),
      is_footer hs row = true ↔
        getCell hs row "FORNECEDOR" = .absent ∧ getCell hs row "NUMERO" = .absent ∧
          getCell hs row "DATA" = .absent ∧ getCell hs row "VALOR" ≠ .absent) ∧
    (∀ t : Table,
      (load_table t).length = (t.rows.filter fun r => !is_footer t.headers r).length) ∧
    (∀ (hs : List String) (row : List Cell),
      load_table ⟨hs, [row]⟩ = [] ↔ is_footer hs row = true) ∧
    load_table ⟨COLUMNS, [footRow]⟩ = [] ∧
    (load_table ⟨COLUMNS, [keptRow]⟩).length = 1 ∧
    (load_table ⟨COLUMNS, [emptyStrRow]⟩).length = 1 := by
  refine ⟨?_, ?_, ?_, by decide, by decide, by decide⟩
  · intro hs row
    unfold is_footer
    simp only [Bool.and_eq_true, Bool.not_eq_true', isna_iff, isna_eq_false]
    tauto
  · intro t
    rw [load_table_eq, List.length_map]
  · intro hs row
    rw [load_table_eq]
    cases hf : is_footer hs row with
    | true => simp [List.filter, hf]
    | false => simp [List.filter, hf]

/-- C5 (counterexample): `norm_numero` removes the interior `.0` of
`"1.05"`, yielding `"15"`, refuting the claim that `.0` occurrences that
are not a trailing artifact are preserved. -/
theorem c5_invoice_number_counterexample :
    norm_numero (Cell.str "1.05") = "15" ∧ norm_numero (Cell.str "1.05") ≠ "1.05" := by
  decide

/-- C5 (amended): invoice-number normalization stringifies the cell,
collapses the sentinels `nan`/`NaT`/`None` (case-insensitively) to the
empty string, removes EVERY occurrence of `.0` (left-to-right,
non-overlapping — not only a trailing artifact) and trims; numeric `123.0`
becomes `"123"` and `None`/`"nan"`/blank become `""`. -/
theorem c5_invoice_number_amended :
    (∀ s : String, (lowerS s = "nan" ∨ lowerS s = "nat" ∨ lowerS s = "none") →
      norm_numero (.str s) = "") ∧
    (∀ s : String, ¬(lowerS s = "nan" ∨ lowerS s = "nat" ∨ lowerS s = "none") →
      norm_numero (.str s) = trimS ⟨replaceDotZero s.data⟩) ∧
    norm_numero (.num 123 0) = "123" ∧
    norm_numero .absent = "" ∧
    norm_numero (.str "None") = "" ∧
    norm_numero (.str "nan") = "" ∧
    norm_numero (.str "") = "" ∧
    norm_numero (.str "1.05") = "15" := by
  refine ⟨?_, ?_, by decide, by decide, by decide, by decide, by decide, by decide⟩
  · intro s h
    rw [norm_numero_str, if_pos h]
  · intro s h
    rw [norm_numero_str, if_neg h]

/-- C5 (witness for the amended theorem): the sentinel `"NaT"` collapses to
the empty string. -/
theorem c5_invoice_number_amended_witness : norm_numero (Cell.str "NaT") = "" :=
  c5_invoice_number_amended.1 "NaT" (Or.inr (Or.inl (by decide)))

/-- C6: textual amounts are parsed by removing `.` then turning `,` into
`.` (so `"1.234,56"` parses to 1234.56), numeric amounts pass through
unchanged, and a parse failure stays absent through the pipeline until the
final persistence step coerces it to 0.0. -/
theorem c6_amount_parsing :
    (∀ s : String, parse_val (.str s) = parseNumStr (commaFix (stripDots s))) ∧
    parse_val (.str "1.234,56") = some (1234.56 : ℚ) ∧
    (∀ (m : Int) (e : Nat), parse_val (.num m e) = some (decVal m e)) ∧
    (∀ (hs : List String) (row : List Cell),
      is_footer hs row = false →
        load_table ⟨hs, [row]⟩ = [fillRow (normRow hs row)] ∧
        (normRow hs row).valor = parse_val (getCell hs row "VALOR") ∧
        (fillRow (normRow hs row)).valor = ((normRow hs row).valor).getD 0) := by
  refine ⟨fun s => rfl, ?_, fun m e => rfl, ?_⟩
  · have hp : parseNumParts (commaFix (stripDots "1.234,56")) = some (false, 1234, 56, 2) := by
      decide
    show (parseNumParts (commaFix (stripDots "1.234,56"))).map partsVal = _
    rw [hp]
    show some (partsVal (false, 1234, 56, 2)) = _
    norm_num [partsVal]
  · intro hs row hf
    refine ⟨?_, rfl, rfl⟩
    rw [load_table_eq]
    simp [List.filter, hf]

/-- C6 (witness): a row whose amount cell is the unparseable text `"abc"`
keeps an absent amount through normalization and gets 0.0 only at the
persistence step. -/
theorem c6_amount_parsing_witness :
    load_table ⟨COLUMNS, [badValRow]⟩ = [fillRow (normRow COLUMNS badValRow)] ∧
    (normRow COLUMNS badValRow).valor = parse_val (getCell COLUMNS badValRow "VALOR") ∧
    (fillRow (normRow COLUMNS badValRow)).valor =
      ((normRow COLUMNS badValRow).valor).getD 0 :=
  c6_amount_parsing.2.2.2 COLUMNS badValRow (by decide)

/-- C7: every ingested record carries exactly the five canonical fields in
fixed order (unrecognized source columns are dropped by the selection,
canonical fields missing from the source read as absent), and the produced
dataset has dense zero-based positions. -/
theorem c7_canonical_shape :
    (∀ (hs : List String) (row : List Cell), (selectRow hs row).map Prod.fst = COLUMNS) ∧
    (∀ (hs : List String) (row : List Cell) (c : String),
      c ∉ renamedHeaders hs → getCell hs row c = .absent) ∧
    (∀ t : Table, (load_table t).enum.map Prod.fst = List.range (load_table t).length) := by
  refine ⟨?_, ?_, fun t => List.enum_map_fst _⟩
  · intro hs row
    rfl
  · intro hs row c hc
    unfold getCell
    rw [show (renamedHeaders hs).findIdx? (fun h => h == c) = none from
      List.findIdx?_eq_none_iff.mpr fun x hx =>
        beq_eq_false_iff_ne.mpr fun hxc => hc (hxc ▸ hx)]

/-- C7 (witness): a canonical column absent from the source is synthesized
as an absent value. -/
theorem c7_canonical_shape_witness : getCell ["FOO"] [] "VALOR" = Cell.absent :=
  c7_canonical_shape.2.1 ["FOO"] [] "VALOR" (by decide)

/-- C8 (counterexample): re-normalizing an already-normalized record can
change it — the record with invoice number `"..00"` normalizes to invoice
number `".0"`, which a second normalization turns into `""` — refuting
idempotence on canonical (pipeline-produced) records. -/
theorem c8_normalize_counterexample :
    normalizeRec (normalizeRec ⟨"A", "1", "..00", none, 0⟩) ≠
      normalizeRec ⟨"A", "1", "..00", none, 0⟩ := by
  decide

/-- C8 (amended): normalization is idempotent on canonical records whose
invoice number additionally contains no occurrence of `.0` and is not one
of the sentinels `nan`/`nat`/`none` (case-insensitively): for such records
with trimmed supplier, digits-only tax_id, trimmed invoice number and typed
date and amount, re-normalization is the identity. -/
theorem c8_normalize_amended (r : Rec)
    (hf : trimS r.fornecedor = r.fornecedor)
    (hc : r.cnpj.data.all Char.isDigit = true)
    (hn : trimS r.numero = r.numero)
    (hn0 : containsSub ['.', '0'] r.numero.data = false)
    (hsent : ¬(lowerS r.numero = "nan" ∨ lowerS r.numero = "nat" ∨
      lowerS r.numero = "none")) :
    normalizeRec r = r := by
  cases r with
  | mk f c n d v =>
    unfold normalizeRec
    simp only [norm_text_str, only_digits_str, norm_numero_str, Rec.mk.injEq]
    refine ⟨hf, String.ext (List.filter_eq_self.mpr (List.all_eq_true.mp hc)), ?_⟩
    rw [if_neg hsent, replaceDotZero_id _ hn0]
    exact ⟨hn, trivial, trivial⟩

/-- C8 (witness for the amended theorem): an ordinary canonical record is a
fixed point of normalization. -/
theorem c8_normalize_amended_witness :
    normalizeRec ⟨"ACME", "123", "42", none, (5 : ℚ)⟩ = ⟨"ACME", "123", "42", none, 5⟩ :=
  c8_normalize_amended _ (by decide) (by decide) (by decide) (by decide) (by decide)

/-- C9: the export serializer is pure — the caller's dataset is returned
unchanged — and produces a single sheet named "NFS A PAGAR" whose header
row is the five canonical columns and whose data rows are exactly the
records, in order, with the issue date reduced to a calendar date and no
index column (each row has exactly the five fields). -/
theorem c9_export_serializer (df : List Rec) :
    (to_excel_bytes df).2 = df ∧
    (to_excel_bytes df).1.sheetName = "NFS A PAGAR" ∧
    (to_excel_bytes df).1.header = COLUMNS ∧
    (to_excel_bytes df).1.rows = df.map exportRow ∧
    ((to_excel_bytes df).1.rows.all fun xr => xr.length = COLUMNS.length) = true ∧
    (∀ r : Rec, exportRow r =
      [.str r.fornecedor, .str r.cnpj, .str r.numero,
        (match r.data with | some dt => .date dt.date | none => .empty),
        .num r.valor]) := by
  refine ⟨rfl, rfl, rfl, rfl, ?_, fun r => rfl⟩
  rw [List.all_eq_true]
  intro xr hxr
  obtain ⟨r, _, rfl⟩ := List.mem_map.mp hxr
  rfl

/-- C10: a fully blank source row is not a footer (its amount is absent),
survives the drop-empty-rows step (which runs after text normalization has
already produced non-null empty strings), and lands in the output as a
record with empty texts, absent date and amount 0.0. -/
theorem c10_blank_rows_retained (hs : List String) (rows : List (List Cell))
    (row : List Cell) (hmem : row ∈ rows)
    (h1 : getCell hs row "FORNECEDOR" = .absent) (h2 : getCell hs row "CNPJ" = .absent)
    (h3 : getCell hs row "NUMERO" = .absent) (h4 : getCell hs row "DATA" = .absent)
    (h5 : getCell hs row "VALOR" = .absent) :
    is_footer hs row = false ∧
    normRow hs row = ⟨"", "", "", none, none⟩ ∧
    rowAllNa (normRow hs row) = false ∧
    (⟨"", "", "", none, (0 : ℚ)⟩ : Rec) ∈ load_table ⟨hs, rows⟩ := by
  have hfoot : is_footer hs row = false := by
    unfold is_footer
    rw [h5]
    simp [Cell.isna]
  have hnorm : normRow hs row = ⟨"", "", "", none, none⟩ := by
    unfold normRow
    rw [h1, h2, h3, h4, h5]
    rfl
  refine ⟨hfoot, hnorm, rowAllNa_false _, ?_⟩
  rw [load_table_eq]
  refine List.mem_map.mpr ⟨row, List.mem_filter.mpr ⟨hmem, ?_⟩, ?_⟩
  · rw [show (is_footer (Table.mk hs rows).headers row) = is_footer hs row from rfl, hfoot]
    rfl
  · rw [show normRow (Table.mk hs rows).headers row = normRow hs row from rfl, hnorm]
    rfl

/-- C10 (witness): the concrete all-blank row is admitted as the record
with empty strings, no date and amount 0.0. -/
theorem c10_blank_rows_retained_witness :
    is_footer COLUMNS blankRow = false ∧
    normRow COLUMNS blankRow = ⟨"", "", "", none, none⟩ ∧
    rowAllNa (normRow COLUMNS blankRow) = false ∧
    (⟨"", "", "", none, (0 : ℚ)⟩ : Rec) ∈ load_table ⟨COLUMNS, [blankRow]⟩ :=
  c10_blank_rows_retained COLUMNS [blankRow] blankRow (by decide) (by decide) (by decide)
    (by decide) (by decide) (by decide)

end App
